import Mathlib

/-!
Shallow embedding of the Render-Origin Classifier from the chrome-ssr-inspector
repository: the second SSRDetector class (the one importing the debug module),
together with the piece of OverlayManager.showOverlay that switches on the
detector output. Elements are opaque identities (modelled as Nat); the
WeakMap of element states is an association list keyed by identity; the two
MutationObservers are modelled by a connected flag each, and a host-delivered
mutation batch is a list of insertion records, each carrying the added node
and the list of its descendants (what element.querySelectorAll returns on it).
-/

namespace SSRInspector

/-- An element of the live document tree: an opaque, identity-comparable
handle. The classifier never constructs elements, so Nat identities suffice. -/
abbrev Element := Nat

/-- RenderType from ssrDetector: SSR (present in initial HTML) or CSR
(added by JavaScript). -/
inductive RenderType : Type where
  | SSR : RenderType
  | CSR : RenderType
deriving DecidableEq

/-- The elementStates WeakMap of SSRDetector, keyed by element identity. -/
abbrev OriginMap := List (Element × RenderType)

/-- WeakMap.get: the stored tag for an element, if any. -/
def OriginMap.get (m : OriginMap) (e : Element) : Option RenderType :=
  match m with
  | [] => none
  | (k, v) :: rest => if k = e then some v else OriginMap.get rest e

/-- WeakMap.set: store a tag, replacing any previous entry for the key. -/
def OriginMap.set (m : OriginMap) (e : Element) (t : RenderType) : OriginMap :=
  match m with
  | [] => [(e, t)]
  | (k, v) :: rest =>
      if k = e then (k, t) :: rest else (k, v) :: OriginMap.set rest e t

/-- WeakMap.has: whether the element already carries an entry. -/
def OriginMap.has (m : OriginMap) (e : Element) : Bool :=
  (m.get e).isSome

/-- The phase field of SSRDetector: capturing_ssr then monitoring_csr. -/
inductive Phase : Type where
  | capturing_ssr : Phase
  | monitoring_csr : Phase
deriving DecidableEq

/-- The mutable state of one SSRDetector instance: the elementStates map,
whether each of the two observers is currently connected (non-null), and the
phase. -/
structure DetectorState : Type where
  elementStates : OriginMap
  ssrObserver : Bool
  csrObserver : Bool
  phase : Phase
deriving DecidableEq

/-- One added node of a mutation record: the element plus the list of its
descendants, i.e. what element.querySelectorAll sees at processing time. -/
structure Insertion : Type where
  node : Element
  descendants : List Element
deriving DecidableEq

/-- The guarded tagging loop that appears three times in the source
(children loop of the ssrObserver callback, children loop of markAsCSR, and
the final scan of switchToCSRMonitoring): for each element in order, if it
has no entry yet, set it to the given tag; otherwise leave it alone. -/
def tagMissing (t : RenderType) : List Element → OriginMap → OriginMap
  | [], m => m
  | c :: rest, m =>
      tagMissing t rest (if m.has c then m else m.set c t)

/-- The unguarded loop of captureExistingElements: set every element of the
current tree to SSR, in document order. -/
def captureLoop : List Element → OriginMap → OriginMap
  | [], m => m
  | e :: rest, m => captureLoop rest (m.set e RenderType.SSR)

/-- captureExistingElements: tag all currently existing elements as SSR.
The doc argument is the querySelectorAll snapshot of the tree at call time. -/
def captureExistingElements (doc : List Element) (m : OriginMap) : OriginMap :=
  captureLoop doc m

/-- startSSRCapture: capture existing elements, then connect the ssrObserver
that watches insertions while HTML is still being parsed. -/
def startSSRCapture (doc : List Element) (st : DetectorState) : DetectorState :=
  { st with
    elementStates := captureExistingElements doc st.elementStates
    ssrObserver := true }

/-- Body of the ssrObserver callback for one added node: set the node to SSR
unconditionally, then tag each descendant that has no entry as SSR. -/
def ssrTagInsertion (m : OriginMap) (ins : Insertion) : OriginMap :=
  tagMissing RenderType.SSR ins.descendants (m.set ins.node RenderType.SSR)

/-- Processing loop of the ssrObserver callback over the added nodes of a
batch, in delivery order. -/
def ssrBatchLoop : List Insertion → OriginMap → OriginMap
  | [], m => m
  | ins :: rest, m => ssrBatchLoop rest (ssrTagInsertion m ins)

/-- Host delivery of a mutation batch to the ssrObserver: the callback runs
only while the observer is connected. -/
def deliverSSRBatch (st : DetectorState) (batch : List Insertion) : DetectorState :=
  if st.ssrObserver then
    { st with elementStates := ssrBatchLoop batch st.elementStates }
  else st

/-- markAsCSR: set the element to CSR, then tag each descendant that has no
entry as CSR. -/
def markAsCSR (m : OriginMap) (ins : Insertion) : OriginMap :=
  tagMissing RenderType.CSR ins.descendants (m.set ins.node RenderType.CSR)

/-- Body of the csrObserver callback for one added node: a node with no
entry is new content and is marked CSR with its subtree; a node that already
has an entry was moved (hydration) and keeps its state. -/
def csrProcessInsertion (m : OriginMap) (ins : Insertion) : OriginMap :=
  if m.has ins.node then m else markAsCSR m ins

/-- Processing loop of the csrObserver callback over the added nodes of a
batch, in delivery order. -/
def csrBatchLoop : List Insertion → OriginMap → OriginMap
  | [], m => m
  | ins :: rest, m => csrBatchLoop rest (csrProcessInsertion m ins)

/-- Host delivery of a mutation batch to the csrObserver: the callback runs
only while the observer is connected. -/
def deliverCSRBatch (st : DetectorState) (batch : List Insertion) : DetectorState :=
  if st.csrObserver then
    { st with elementStates := csrBatchLoop batch st.elementStates }
  else st

/-- The final SSR scan of switchToCSRMonitoring: walk the whole tree and tag
any still-unclassified element as SSR. -/
def finalSSRScan (doc : List Element) (m : OriginMap) : OriginMap :=
  tagMissing RenderType.SSR doc m

/-- startCSRMonitoring: connect the csrObserver. -/
def startCSRMonitoring (st : DetectorState) : DetectorState :=
  { st with csrObserver := true }

/-- switchToCSRMonitoring, run on the DOMContentLoaded signal: disconnect the
ssrObserver, run the final SSR scan over the current tree, move the phase to
monitoring_csr, then start CSR monitoring. -/
def switchToCSRMonitoring (doc : List Element) (st : DetectorState) : DetectorState :=
  startCSRMonitoring
    { st with
      ssrObserver := false
      elementStates := finalSSRScan doc st.elementStates
      phase := Phase.monitoring_csr }

/-- getRenderType: the stored tag if present, otherwise SSR (an untracked
element existed before monitoring started). -/
def getRenderType (m : OriginMap) (e : Element) : RenderType :=
  match m.get e with
  | some t => t
  | none => RenderType.SSR

/-- isSSR: backward-compatibility wrapper over getRenderType. -/
def isSSR (m : OriginMap) (e : Element) : Bool :=
  getRenderType m e = RenderType.SSR

/-- The record returned by getStats. -/
structure Stats : Type where
  ssr : Nat
  csr : Nat
  total : Nat
deriving DecidableEq

/-- The tally loop of getStats: walk the tree, classify each element, and
count SSR hits and CSR hits separately. -/
def statsLoop (m : OriginMap) : List Element → Nat → Nat → Nat × Nat
  | [], ssrCount, csrCount => (ssrCount, csrCount)
  | e :: rest, ssrCount, csrCount =>
      match getRenderType m e with
      | RenderType.SSR => statsLoop m rest (ssrCount + 1) csrCount
      | RenderType.CSR => statsLoop m rest ssrCount (csrCount + 1)

/-- getStats: classify every element of the current tree snapshot and return
the SSR count, the CSR count, and the total number of elements. -/
def getStats (doc : List Element) (m : OriginMap) : Stats :=
  let counts := statsLoop m doc 0 0
  { ssr := counts.1, csr := counts.2, total := doc.length }

/-- destroy: disconnect whichever observers are connected. The map and the
phase are untouched. -/
def destroy (st : DetectorState) : DetectorState :=
  { st with ssrObserver := false, csrObserver := false }

/-- The host-driven events an SSRDetector instance can receive after
construction: a mutation batch seen by the ssrObserver, the DOMContentLoaded
signal (carrying the tree snapshot at that moment), a mutation batch seen by
the csrObserver, and the destroy call. -/
inductive HostOp : Type where
  | ssrBatch : List Insertion → HostOp
  | domContentLoaded : List Element → HostOp
  | csrBatch : List Insertion → HostOp
  | destroy : HostOp
deriving DecidableEq

/-- Apply one host event to the detector state. -/
def applyOp (st : DetectorState) : HostOp → DetectorState
  | HostOp.ssrBatch b => deliverSSRBatch st b
  | HostOp.domContentLoaded doc => switchToCSRMonitoring doc st
  | HostOp.csrBatch b => deliverCSRBatch st b
  | HostOp.destroy => destroy st

/-- Run a sequence of host events in order. -/
def runOps (st : DetectorState) : List HostOp → DetectorState
  | [] => st
  | op :: ops => runOps (applyOp st op) ops

/-- The state built by the SSRDetector constructor at document_start: empty
map, capturing phase, then startSSRCapture over the tree present at load. -/
def initDetector (doc : List Element) : DetectorState :=
  startSSRCapture doc
    { elementStates := []
      ssrObserver := false
      csrObserver := false
      phase := Phase.capturing_ssr }

/-- Every state reachable from construction over a document by a sequence of
host events. -/
def reachDetector (doc : List Element) (ops : List HostOp) : DetectorState :=
  runOps (initDetector doc) ops

/-- Number of steps along a run at which the phase field changes. -/
def phaseTransitions (st : DetectorState) : List HostOp → Nat
  | [] => 0
  | op :: ops =>
      (if (applyOp st op).phase = st.phase then 0 else 1) +
        phaseTransitions (applyOp st op) ops

/-- A host-delivered mutation notification: a batch offered to one of the two
observers (only a connected observer processes it). -/
inductive MutationBatch : Type where
  | ssr : List Insertion → MutationBatch
  | csr : List Insertion → MutationBatch
deriving DecidableEq

/-- Deliver one mutation notification. -/
def deliverMutation (st : DetectorState) : MutationBatch → DetectorState
  | MutationBatch.ssr b => deliverSSRBatch st b
  | MutationBatch.csr b => deliverCSRBatch st b

/-- Deliver a sequence of mutation notifications in order. -/
def deliverMutations (st : DetectorState) : List MutationBatch → DetectorState
  | [] => st
  | b :: rest => deliverMutations (deliverMutation st b) rest

/-- The render-type vocabulary that OverlayManager.showOverlay switches over:
it still carries an UNKNOWN case. -/
inductive OverlayRenderType : Type where
  | SSR : OverlayRenderType
  | CSR : OverlayRenderType
  | UNKNOWN : OverlayRenderType
deriving DecidableEq

/-- The colors showOverlay assigns in one switch branch. -/
structure OverlayStyle : Type where
  backgroundColor : String
  borderColor : String
deriving DecidableEq

/-- The switch of OverlayManager.showOverlay over the render type: green for
SSR, blue for CSR, yellow for UNKNOWN. -/
def showOverlayStyle : OverlayRenderType → OverlayStyle
  | OverlayRenderType.SSR =>
      { backgroundColor := "rgba(16, 185, 129, 0.2)"
        borderColor := "rgba(16, 185, 129, 0.8)" }
  | OverlayRenderType.CSR =>
      { backgroundColor := "rgba(59, 130, 246, 0.2)"
        borderColor := "rgba(59, 130, 246, 0.8)" }
  | OverlayRenderType.UNKNOWN =>
      { backgroundColor := "rgba(251, 191, 36, 0.2)"
        borderColor := "rgba(251, 191, 36, 0.8)" }

/-- How a detector verdict reads in the vocabulary of the overlay switch. -/
def ofDetector : RenderType → OverlayRenderType
  | RenderType.SSR => OverlayRenderType.SSR
  | RenderType.CSR => OverlayRenderType.CSR

/-- Every entry of the map carries the SSR tag. -/
def AllSSR (m : OriginMap) : Prop :=
  ∀ x v, m.get x = some v → v = RenderType.SSR

/-- Invariant of the capture phase: while the ssrObserver is connected, the
phase is still capturing_ssr, the csrObserver is not yet connected, and no
element has been tagged CSR. -/
def CaptureInv (st : DetectorState) : Prop :=
  st.ssrObserver = true →
    st.phase = Phase.capturing_ssr ∧ st.csrObserver = false ∧
      AllSSR st.elementStates

/-- Looking up after a store: the stored tag at the stored key, the old view
elsewhere. -/
theorem get_set (m : OriginMap) (e : Element) (t : RenderType) (x : Element) :
    (m.set e t).get x = if x = e then some t else m.get x := by
  induction m with
  | nil =>
      simp only [OriginMap.set, OriginMap.get]
      split_ifs <;> first | rfl | simp_all
  | cons p rest ih =>
      obtain ⟨k, v⟩ := p
      simp only [OriginMap.set]
      by_cases hk : k = e
      · simp only [if_pos hk, OriginMap.get]
        split_ifs <;> first | rfl | simp_all
      · simp only [if_neg hk, OriginMap.get, ih]
        split_ifs <;> first | rfl | simp_all

/-- The guarded tagging loop never disturbs an existing entry. -/
theorem get_tagMissing_some (t : RenderType) (ds : List Element) (m : OriginMap)
    (x : Element) (v : RenderType) (h : m.get x = some v) :
    (tagMissing t ds m).get x = some v := by
  induction ds generalizing m with
  | nil => simpa [tagMissing] using h
  | cons c rest ih =>
      simp only [tagMissing]
      by_cases hc : m.has c
      · simp only [if_pos hc]
        exact ih m h
      · simp only [if_neg hc]
        apply ih
        rw [get_set]
        by_cases hx : x = c
        · subst hx
          exact absurd (by simp [OriginMap.has, h]) hc
        · rw [if_neg hx]
          exact h

/-- The guarded tagging loop gives the tag to every listed element that had
no entry. -/
theorem get_tagMissing_none (t : RenderType) (ds : List Element) (m : OriginMap)
    (x : Element) (h : m.get x = none) (hmem : x ∈ ds) :
    (tagMissing t ds m).get x = some t := by
  induction ds generalizing m with
  | nil => cases hmem
  | cons c rest ih =>
      simp only [tagMissing]
      by_cases hx : x = c
      · subst hx
        have hc : ¬ (m.has x = true) := by simp [OriginMap.has, h]
        simp only [if_neg hc]
        apply get_tagMissing_some
        rw [get_set]
        simp
      · have hmem2 : x ∈ rest := by
          rcases List.mem_cons.mp hmem with h1 | h1
          · exact absurd h1 hx
          · exact h1
        by_cases hc : m.has c
        · simp only [if_pos hc]
          exact ih m h hmem2
        · simp only [if_neg hc]
          apply ih _ _ hmem2
          rw [get_set, if_neg hx]
          exact h

/-- Any entry present after the guarded tagging loop either carries the tag
the loop writes or was already present before. -/
theorem get_tagMissing_cases (t : RenderType) (ds : List Element) (m : OriginMap)
    (x : Element) (v : RenderType) (h : (tagMissing t ds m).get x = some v) :
    v = t ∨ m.get x = some v := by
  induction ds generalizing m with
  | nil => right; simpa [tagMissing] using h
  | cons c rest ih =>
      simp only [tagMissing] at h
      rcases ih _ h with h1 | h1
      · left; exact h1
      · by_cases hc : m.has c
        · rw [if_pos hc] at h1
          right; exact h1
        · rw [if_neg hc, get_set] at h1
          by_cases hx : x = c
          · rw [if_pos hx] at h1
            left; exact (Option.some.inj h1).symm
          · rw [if_neg hx] at h1
            right; exact h1

/-- The unguarded capture loop: every walked element reads SSR afterwards,
every other element keeps its old view. -/
theorem get_captureLoop (doc : List Element) (m : OriginMap) (x : Element) :
    (captureLoop doc m).get x =
      if x ∈ doc then some RenderType.SSR else m.get x := by
  induction doc generalizing m with
  | nil => simp [captureLoop]
  | cons e rest ih =>
      simp only [captureLoop, ih, get_set]
      by_cases hx : x ∈ rest
      · simp [hx]
      · by_cases he : x = e
        · simp [hx, he]
        · simp [hx, he]

/-- Processing one monitoring-phase insertion never disturbs an existing
entry. -/
theorem get_csrProcess_some (m : OriginMap) (ins : Insertion) (x : Element)
    (v : RenderType) (h : m.get x = some v) :
    (csrProcessInsertion m ins).get x = some v := by
  unfold csrProcessInsertion
  by_cases hn : m.has ins.node
  · rw [if_pos hn]
    exact h
  · rw [if_neg hn]
    unfold markAsCSR
    apply get_tagMissing_some
    rw [get_set]
    by_cases hx : x = ins.node
    · subst hx
      exact absurd (by simp [OriginMap.has, h]) hn
    · rw [if_neg hx]
      exact h

/-- A whole monitoring-phase batch never disturbs an existing entry. -/
theorem get_csrBatchLoop_some (batch : List Insertion) (m : OriginMap) (x : Element)
    (v : RenderType) (h : m.get x = some v) :
    (csrBatchLoop batch m).get x = some v := by
  induction batch generalizing m with
  | nil => simpa [csrBatchLoop] using h
  | cons ins rest ih =>
      simp only [csrBatchLoop]
      exact ih _ (get_csrProcess_some _ _ _ _ h)

/-- Storing SSR keeps the map all-SSR. -/
theorem allSSR_set_SSR (m : OriginMap) (e : Element) (h : AllSSR m) :
    AllSSR (m.set e RenderType.SSR) := by
  intro x v hv
  rw [get_set] at hv
  by_cases hx : x = e
  · rw [if_pos hx] at hv
    exact (Option.some.inj hv).symm
  · rw [if_neg hx] at hv
    exact h x v hv

/-- The guarded SSR tagging loop keeps the map all-SSR. -/
theorem allSSR_tagMissing (ds : List Element) (m : OriginMap) (h : AllSSR m) :
    AllSSR (tagMissing RenderType.SSR ds m) := by
  intro x v hv
  rcases get_tagMissing_cases _ _ _ _ _ hv with h1 | h1
  · exact h1
  · exact h x v h1

/-- The ssrObserver callback keeps the map all-SSR. -/
theorem allSSR_ssrTagInsertion (m : OriginMap) (ins : Insertion) (h : AllSSR m) :
    AllSSR (ssrTagInsertion m ins) := by
  unfold ssrTagInsertion
  exact allSSR_tagMissing _ _ (allSSR_set_SSR _ _ h)

/-- An ssrObserver batch keeps the map all-SSR. -/
theorem allSSR_ssrBatchLoop (batch : List Insertion) (m : OriginMap) (h : AllSSR m) :
    AllSSR (ssrBatchLoop batch m) := by
  induction batch generalizing m with
  | nil => simpa [ssrBatchLoop] using h
  | cons ins rest ih =>
      simp only [ssrBatchLoop]
      exact ih _ (allSSR_ssrTagInsertion _ _ h)

/-- The constructor establishes the capture-phase invariant. -/
theorem captureInv_initDetector (doc : List Element) : CaptureInv (initDetector doc) := by
  intro _
  refine ⟨rfl, rfl, ?_⟩
  intro x v hv
  have hv2 : (captureLoop doc []).get x = some v := hv
  rw [get_captureLoop] at hv2
  by_cases hx : x ∈ doc
  · rw [if_pos hx] at hv2
    exact (Option.some.inj hv2).symm
  · rw [if_neg hx] at hv2
    simp [OriginMap.get] at hv2

/-- Every host event preserves the capture-phase invariant. -/
theorem captureInv_applyOp (st : DetectorState) (op : HostOp) (h : CaptureInv st) :
    CaptureInv (applyOp st op) := by
  cases op with
  | ssrBatch b =>
      intro hs
      by_cases ho : st.ssrObserver
      · obtain ⟨h1, h2, h3⟩ := h ho
        have hstep : applyOp st (HostOp.ssrBatch b) =
            { st with elementStates := ssrBatchLoop b st.elementStates } := by
          simp [applyOp, deliverSSRBatch, ho]
        rw [hstep]
        exact ⟨h1, h2, allSSR_ssrBatchLoop _ _ h3⟩
      · have hstep : applyOp st (HostOp.ssrBatch b) = st := by
          simp [applyOp, deliverSSRBatch, ho]
        rw [hstep] at hs ⊢
        exact h hs
  | domContentLoaded doc2 =>
      intro hs
      simp [applyOp, switchToCSRMonitoring, startCSRMonitoring] at hs
  | csrBatch b =>
      intro hs
      by_cases ho : st.csrObserver
      · have hss : st.ssrObserver = true := by
          have hstep : applyOp st (HostOp.csrBatch b) =
              { st with elementStates := csrBatchLoop b st.elementStates } := by
            simp [applyOp, deliverCSRBatch, ho]
          rw [hstep] at hs
          exact hs
        obtain ⟨h1, h2, h3⟩ := h hss
        rw [h2] at ho
        simp at ho
      · have hstep : applyOp st (HostOp.csrBatch b) = st := by
          simp [applyOp, deliverCSRBatch, ho]
        rw [hstep] at hs ⊢
        exact h hs
  | destroy =>
      intro hs
      simp [applyOp, destroy] at hs

/-- Running any host event sequence preserves the capture-phase invariant. -/
theorem captureInv_runOps (st : DetectorState) (ops : List HostOp) (h : CaptureInv st) :
    CaptureInv (runOps st ops) := by
  induction ops generalizing st with
  | nil => simpa [runOps] using h
  | cons op rest ih =>
      simp only [runOps]
      exact ih _ (captureInv_applyOp _ _ h)

/-- One host event either leaves the phase alone or moves it to
monitoring_csr. -/
theorem applyOp_phase (st : DetectorState) (op : HostOp) :
    (applyOp st op).phase = st.phase ∨ (applyOp st op).phase = Phase.monitoring_csr := by
  cases op with
  | ssrBatch b =>
      left
      simp only [applyOp, deliverSSRBatch]
      split <;> rfl
  | domContentLoaded doc => right; rfl
  | csrBatch b =>
      left
      simp only [applyOp, deliverCSRBatch]
      split <;> rfl
  | destroy => left; rfl

/-- Once the phase is monitoring_csr, no event sequence changes it. -/
theorem runOps_phase_monitoring (ops : List HostOp) :
    ∀ st : DetectorState, st.phase = Phase.monitoring_csr →
      (runOps st ops).phase = Phase.monitoring_csr := by
  induction ops with
  | nil => intro st h; simpa [runOps] using h
  | cons op rest ih =>
      intro st h
      simp only [runOps]
      apply ih
      rcases applyOp_phase st op with h1 | h1
      · rw [h1, h]
      · exact h1

/-- Once the phase is monitoring_csr, no further phase change is counted. -/
theorem phaseTransitions_monitoring (ops : List HostOp) :
    ∀ st : DetectorState, st.phase = Phase.monitoring_csr →
      phaseTransitions st ops = 0 := by
  induction ops with
  | nil => intro st h; rfl
  | cons op rest ih =>
      intro st h
      simp only [phaseTransitions]
      have h1 : (applyOp st op).phase = st.phase := by
        rcases applyOp_phase st op with h2 | h2
        · exact h2
        · rw [h2, h]
      rw [if_pos h1, ih _ (h1.trans h)]

/-- Any run counts at most one phase change. -/
theorem phaseTransitions_le_one (ops : List HostOp) :
    ∀ st : DetectorState, phaseTransitions st ops ≤ 1 := by
  induction ops with
  | nil => intro st; simp [phaseTransitions]
  | cons op rest ih =>
      intro st
      simp only [phaseTransitions]
      by_cases h : (applyOp st op).phase = st.phase
      · rw [if_pos h]
        simpa using ih (applyOp st op)
      · rw [if_neg h]
        have h1 : (applyOp st op).phase = Phase.monitoring_csr := by
          rcases applyOp_phase st op with h2 | h2
          · exact absurd h2 h
          · exact h2
        rw [phaseTransitions_monitoring rest _ h1]

/-- A destroyed detector ignores every mutation notification. -/
theorem deliverMutation_destroy (st : DetectorState) (b : MutationBatch) :
    deliverMutation (destroy st) b = destroy st := by
  cases b with
  | ssr l => simp [deliverMutation, deliverSSRBatch, destroy]
  | csr l => simp [deliverMutation, deliverCSRBatch, destroy]

/-- The tally loop adds exactly one count per walked element. -/
theorem statsLoop_sum (m : OriginMap) (doc : List Element) :
    ∀ s c : Nat,
      (statsLoop m doc s c).1 + (statsLoop m doc s c).2 = s + c + doc.length := by
  induction doc with
  | nil => intro s c; simp [statsLoop]
  | cons e rest ih =>
      intro s c
      cases h : getRenderType m e with
      | SSR =>
          simp only [statsLoop, h, List.length_cons]
          rw [ih]
          omega
      | CSR =>
          simp only [statsLoop, h, List.length_cons]
          rw [ih]
          omega

/-- The classifier output is one of the two enum members. -/
theorem getRenderType_eq_SSR_or_CSR (m : OriginMap) (e : Element) :
    getRenderType m e = RenderType.SSR ∨ getRenderType m e = RenderType.CSR := by
  unfold getRenderType
  cases m.get e with
  | none => left; rfl
  | some t =>
      cases t with
      | SSR => left; rfl
      | CSR => right; rfl

/-- C1: once the phase has moved to monitoring and the csrObserver is
connected, processing the insertion batch of a fresh element (one with no
OriginMap entry) makes the classifier return CSR for it, and likewise for
every descendant inserted as part of the same subtree that had no entry. -/
theorem monitoring_tags_new_insertions (st : DetectorState) (ins : Insertion)
    (_hphase : st.phase = Phase.monitoring_csr)
    (hobs : st.csrObserver = true)
    (hfresh : st.elementStates.get ins.node = none) :
    getRenderType (deliverCSRBatch st [ins]).elementStates ins.node = RenderType.CSR ∧
    ∀ d, d ∈ ins.descendants → st.elementStates.get d = none →
      getRenderType (deliverCSRBatch st [ins]).elementStates d = RenderType.CSR := by
  have hstep : (deliverCSRBatch st [ins]).elementStates =
      csrProcessInsertion st.elementStates ins := by
    simp [deliverCSRBatch, hobs, csrBatchLoop]
  have hn : ¬ (st.elementStates.has ins.node = true) := by
    simp [OriginMap.has, hfresh]
  have hmark : csrProcessInsertion st.elementStates ins =
      markAsCSR st.elementStates ins := by
    simp [csrProcessInsertion, hn]
  constructor
  · rw [hstep, hmark]
    unfold markAsCSR
    have hroot : (tagMissing RenderType.CSR ins.descendants
        (st.elementStates.set ins.node RenderType.CSR)).get ins.node =
          some RenderType.CSR := by
      apply get_tagMissing_some
      rw [get_set]
      simp
    unfold getRenderType
    rw [hroot]
  · intro d hd hdnone
    rw [hstep, hmark]
    unfold markAsCSR
    by_cases hdx : d = ins.node
    · subst hdx
      have hroot : (tagMissing RenderType.CSR ins.descendants
          (st.elementStates.set ins.node RenderType.CSR)).get ins.node =
            some RenderType.CSR := by
        apply get_tagMissing_some
        rw [get_set]
        simp
      unfold getRenderType
      rw [hroot]
    · have h0 : (st.elementStates.set ins.node RenderType.CSR).get d = none := by
        rw [get_set, if_neg hdx]
        exact hdnone
      have hdes : (tagMissing RenderType.CSR ins.descendants
          (st.elementStates.set ins.node RenderType.CSR)).get d =
            some RenderType.CSR :=
        get_tagMissing_none _ _ _ _ h0 hd
      unfold getRenderType
      rw [hdes]

/-- C1 witness: one concrete monitoring-phase insertion. -/
theorem monitoring_tags_new_insertions_witness :
    getRenderType (deliverCSRBatch (reachDetector [] [HostOp.domContentLoaded []])
      [⟨1, [2]⟩]).elementStates 1 = RenderType.CSR ∧
    getRenderType (deliverCSRBatch (reachDetector [] [HostOp.domContentLoaded []])
      [⟨1, [2]⟩]).elementStates 2 = RenderType.CSR := by
  have h := monitoring_tags_new_insertions
    (reachDetector [] [HostOp.domContentLoaded []]) ⟨1, [2]⟩
    (by decide) (by decide) (by decide)
  exact ⟨h.1, h.2 2 (by decide) (by decide)⟩

/-- C2: an element whose entry is SSR keeps that entry through the processing
of any monitoring-phase insertion batch (relocation and bulk CLIENT
propagation included), so the classifier still answers SSR afterwards. -/
theorem relocation_preserves_server (st : DetectorState) (batch : List Insertion)
    (e : Element)
    (h : st.elementStates.get e = some RenderType.SSR) :
    (deliverCSRBatch st batch).elementStates.get e = some RenderType.SSR ∧
    getRenderType (deliverCSRBatch st batch).elementStates e = RenderType.SSR := by
  have hmain : (deliverCSRBatch st batch).elementStates.get e =
      some RenderType.SSR := by
    unfold deliverCSRBatch
    by_cases ho : st.csrObserver
    · rw [if_pos ho]
      exact get_csrBatchLoop_some _ _ _ _ h
    · rw [if_neg ho]
      exact h
  refine ⟨hmain, ?_⟩
  unfold getRenderType
  rw [hmain]

/-- C2 witness: a concrete SSR element reinserted during monitoring. -/
theorem relocation_preserves_server_witness :
    (deliverCSRBatch ⟨[(7, RenderType.SSR)], false, true, Phase.monitoring_csr⟩
      [⟨7, []⟩]).elementStates.get 7 = some RenderType.SSR ∧
    getRenderType (deliverCSRBatch
      ⟨[(7, RenderType.SSR)], false, true, Phase.monitoring_csr⟩
      [⟨7, []⟩]).elementStates 7 = RenderType.SSR :=
  relocation_preserves_server _ _ _ (by decide)

/-- C3: getRenderType returns the stored tag when an entry exists, SSR when
none exists, and in every case one of the two defined tags, never a third
value. -/
theorem classify_total (m : OriginMap) (e : Element) :
    (∀ t, m.get e = some t → getRenderType m e = t) ∧
    (m.get e = none → getRenderType m e = RenderType.SSR) ∧
    (getRenderType m e = RenderType.SSR ∨ getRenderType m e = RenderType.CSR) := by
  refine ⟨?_, ?_, getRenderType_eq_SSR_or_CSR m e⟩
  · intro t ht
    unfold getRenderType
    rw [ht]
  · intro ht
    unfold getRenderType
    rw [ht]

/-- C3 witness: a stored CSR tag is returned, a missing entry resolves to
SSR. -/
theorem classify_total_witness :
    getRenderType [(3, RenderType.CSR)] 3 = RenderType.CSR ∧
    getRenderType [] 4 = RenderType.SSR :=
  ⟨(classify_total [(3, RenderType.CSR)] 3).1 RenderType.CSR (by decide),
   (classify_total [] 4).2.1 (by decide)⟩

/-- C4: startSSRCapture tags every element present in the walked tree as SSR
immediately, and while the capture watch is connected on a reachable state,
every element of a delivered insertion batch and all its descendants end up
tagged SSR. -/
theorem begin_capture_tags_server :
    (∀ doc (st : DetectorState) e, e ∈ doc →
      (startSSRCapture doc st).elementStates.get e = some RenderType.SSR) ∧
    (∀ doc ops ins,
      (reachDetector doc ops).ssrObserver = true →
      (deliverSSRBatch (reachDetector doc ops) [ins]).elementStates.get ins.node =
        some RenderType.SSR ∧
      ∀ d, d ∈ ins.descendants →
        (deliverSSRBatch (reachDetector doc ops) [ins]).elementStates.get d =
          some RenderType.SSR) := by
  constructor
  · intro doc st e he
    show (captureLoop doc st.elementStates).get e = some RenderType.SSR
    rw [get_captureLoop, if_pos he]
  · intro doc ops ins hobs
    have hR : CaptureInv (reachDetector doc ops) :=
      captureInv_runOps _ _ (captureInv_initDetector doc)
    have hinv : AllSSR (reachDetector doc ops).elementStates := (hR hobs).2.2
    have hstep : (deliverSSRBatch (reachDetector doc ops) [ins]).elementStates =
        ssrTagInsertion (reachDetector doc ops).elementStates ins := by
      simp [deliverSSRBatch, hobs, ssrBatchLoop]
    constructor
    · rw [hstep]
      unfold ssrTagInsertion
      apply get_tagMissing_some
      rw [get_set]
      simp
    · intro d hd
      rw [hstep]
      unfold ssrTagInsertion
      cases hg : ((reachDetector doc ops).elementStates.set ins.node
          RenderType.SSR).get d with
      | none => exact get_tagMissing_none _ _ _ _ hg hd
      | some v =>
          have hv : v = RenderType.SSR := by
            rw [get_set] at hg
            by_cases hdx : d = ins.node
            · rw [if_pos hdx] at hg
              exact (Option.some.inj hg).symm
            · rw [if_neg hdx] at hg
              exact hinv d v hg
          rw [hv] at hg
          exact get_tagMissing_some _ _ _ _ _ hg

/-- C4 witness: a concrete initial walk and a concrete capture-phase
insertion with one descendant. -/
theorem begin_capture_tags_server_witness :
    (startSSRCapture [0]
      { elementStates := []
        ssrObserver := false
        csrObserver := false
        phase := Phase.capturing_ssr }).elementStates.get 0 =
      some RenderType.SSR ∧
    (deliverSSRBatch (reachDetector [0] []) [⟨1, [2]⟩]).elementStates.get 1 =
      some RenderType.SSR ∧
    (deliverSSRBatch (reachDetector [0] []) [⟨1, [2]⟩]).elementStates.get 2 =
      some RenderType.SSR := by
  refine ⟨begin_capture_tags_server.1 [0] _ 0 (by decide), ?_, ?_⟩
  · exact (begin_capture_tags_server.2 [0] [] ⟨1, [2]⟩ (by decide)).1
  · exact (begin_capture_tags_server.2 [0] [] ⟨1, [2]⟩ (by decide)).2 2 (by decide)

/-- C5: switchToCSRMonitoring leaves the ssrObserver disconnected, moves the
phase to monitoring_csr, connects the csrObserver, tags every walked element
that had no entry as SSR, and leaves every already-classified entry
unchanged. -/
theorem complete_capture_steps (doc : List Element) (st : DetectorState) :
    (switchToCSRMonitoring doc st).ssrObserver = false ∧
    (switchToCSRMonitoring doc st).phase = Phase.monitoring_csr ∧
    (switchToCSRMonitoring doc st).csrObserver = true ∧
    (∀ e, e ∈ doc → st.elementStates.get e = none →
      (switchToCSRMonitoring doc st).elementStates.get e = some RenderType.SSR) ∧
    (∀ e v, st.elementStates.get e = some v →
      (switchToCSRMonitoring doc st).elementStates.get e = some v) := by
  refine ⟨rfl, rfl, rfl, ?_, ?_⟩
  · intro e he hnone
    show (finalSSRScan doc st.elementStates).get e = some RenderType.SSR
    exact get_tagMissing_none _ _ _ _ hnone he
  · intro e v hv
    show (finalSSRScan doc st.elementStates).get e = some v
    exact get_tagMissing_some _ _ _ _ _ hv

/-- C5 witness: a concrete switch over a tree with one missed element, with
one earlier CSR entry left untouched. -/
theorem complete_capture_steps_witness :
    (switchToCSRMonitoring [4]
      ⟨[(9, RenderType.CSR)], true, false, Phase.capturing_ssr⟩).ssrObserver = false ∧
    (switchToCSRMonitoring [4]
      ⟨[(9, RenderType.CSR)], true, false, Phase.capturing_ssr⟩).phase =
        Phase.monitoring_csr ∧
    (switchToCSRMonitoring [4]
      ⟨[(9, RenderType.CSR)], true, false, Phase.capturing_ssr⟩).csrObserver = true ∧
    (switchToCSRMonitoring [4]
      ⟨[(9, RenderType.CSR)], true, false, Phase.capturing_ssr⟩).elementStates.get 4 =
        some RenderType.SSR ∧
    (switchToCSRMonitoring [4]
      ⟨[(9, RenderType.CSR)], true, false, Phase.capturing_ssr⟩).elementStates.get 9 =
        some RenderType.CSR := by
  have h := complete_capture_steps [4]
    ⟨[(9, RenderType.CSR)], true, false, Phase.capturing_ssr⟩
  exact ⟨h.1, h.2.1, h.2.2.1, h.2.2.2.1 4 (by decide) (by decide),
    h.2.2.2.2 9 RenderType.CSR (by decide)⟩

/-- C6: getStats reports a total equal to the number of elements of the
walked tree snapshot, and its SSR and CSR tallies add up to that total. -/
theorem aggregate_consistency (doc : List Element) (m : OriginMap) :
    (getStats doc m).total = doc.length ∧
    (getStats doc m).ssr + (getStats doc m).csr = (getStats doc m).total := by
  refine ⟨rfl, ?_⟩
  show (statsLoop m doc 0 0).1 + (statsLoop m doc 0 0).2 = doc.length
  simpa using statsLoop_sum m doc 0 0

/-- C7: the phase is forward-only: one event keeps a monitoring phase
monitoring, so does any event sequence, and any run from construction
changes the phase at most once. -/
theorem phase_forward_only :
    (∀ (st : DetectorState) op, st.phase = Phase.monitoring_csr →
      (applyOp st op).phase = Phase.monitoring_csr) ∧
    (∀ (st : DetectorState) ops, st.phase = Phase.monitoring_csr →
      (runOps st ops).phase = Phase.monitoring_csr) ∧
    (∀ doc ops, phaseTransitions (initDetector doc) ops ≤ 1) := by
  refine ⟨?_, ?_, ?_⟩
  · intro st op h
    rcases applyOp_phase st op with h1 | h1
    · rw [h1, h]
    · exact h1
  · intro st ops h
    exact runOps_phase_monitoring ops st h
  · intro doc ops
    exact phaseTransitions_le_one ops (initDetector doc)

/-- C7 witness: concrete monitoring states and one concrete run. -/
theorem phase_forward_only_witness :
    (applyOp ⟨[], false, true, Phase.monitoring_csr⟩ HostOp.destroy).phase =
      Phase.monitoring_csr ∧
    (runOps ⟨[], false, true, Phase.monitoring_csr⟩ [HostOp.destroy]).phase =
      Phase.monitoring_csr ∧
    phaseTransitions (initDetector [0]) [HostOp.domContentLoaded []] ≤ 1 :=
  ⟨phase_forward_only.1 _ _ rfl, phase_forward_only.2.1 _ _ rfl,
   phase_forward_only.2.2 [0] [HostOp.domContentLoaded []]⟩

/-- C8: after destroy, delivering any sequence of mutation notifications
leaves the state exactly as destroy left it, the OriginMap is the one from
teardown time, and the classifier answers as it did then. -/
theorem teardown_stability (st : DetectorState) (bs : List MutationBatch) :
    deliverMutations (destroy st) bs = destroy st ∧
    (deliverMutations (destroy st) bs).elementStates = st.elementStates ∧
    ∀ e, getRenderType (deliverMutations (destroy st) bs).elementStates e =
      getRenderType st.elementStates e := by
  have hfix : deliverMutations (destroy st) bs = destroy st := by
    induction bs with
    | nil => rfl
    | cons b rest ih =>
        simp only [deliverMutations, deliverMutation_destroy]
        exact ih
  refine ⟨hfix, ?_, ?_⟩
  · rw [hfix]
    rfl
  · intro e
    rw [hfix]
    rfl

/-- C9 counterexample: from a reachable monitoring-phase state holding a CSR
entry, running the beginCapture body again is not a no-op: the CSR entry is
overwritten with SSR and the capture watch is reconnected. -/
theorem begin_capture_reentrant_counterexample :
    (reachDetector [] [HostOp.domContentLoaded [],
      HostOp.csrBatch [⟨5, []⟩]]).phase = Phase.monitoring_csr ∧
    (reachDetector [] [HostOp.domContentLoaded [],
      HostOp.csrBatch [⟨5, []⟩]]).elementStates.get 5 = some RenderType.CSR ∧
    (startSSRCapture [5] (reachDetector [] [HostOp.domContentLoaded [],
      HostOp.csrBatch [⟨5, []⟩]])).elementStates.get 5 = some RenderType.SSR ∧
    (startSSRCapture [5] (reachDetector [] [HostOp.domContentLoaded [],
      HostOp.csrBatch [⟨5, []⟩]])).ssrObserver = true := by
  decide

/-- C9 as the code actually behaves: a repeated beginCapture is not guarded
by phase: from any state it tags every element of the walked tree as SSR
(overwriting CLIENT entries) and reconnects the capture watch. -/
theorem begin_capture_reentrant (doc : List Element) (st : DetectorState)
    (e : Element) (he : e ∈ doc) :
    (startSSRCapture doc st).elementStates.get e = some RenderType.SSR ∧
    (startSSRCapture doc st).ssrObserver = true := by
  constructor
  · show (captureLoop doc st.elementStates).get e = some RenderType.SSR
    rw [get_captureLoop, if_pos he]
  · rfl

/-- C9 witness: the concrete overwrite of a CSR entry. -/
theorem begin_capture_reentrant_witness :
    (startSSRCapture [5]
      ⟨[(5, RenderType.CSR)], false, true, Phase.monitoring_csr⟩).elementStates.get 5 =
      some RenderType.SSR ∧
    (startSSRCapture [5]
      ⟨[(5, RenderType.CSR)], false, true, Phase.monitoring_csr⟩).ssrObserver = true :=
  begin_capture_reentrant [5] _ 5 (by decide)

/-- C10: the classifier only ever answers SSR or CSR, so the UNKNOWN branch
of the showOverlay switch is never selected for a detector verdict. -/
theorem overlay_unknown_unreachable (m : OriginMap) (e : Element) :
    (getRenderType m e = RenderType.SSR ∨ getRenderType m e = RenderType.CSR) ∧
    ofDetector (getRenderType m e) ≠ OverlayRenderType.UNKNOWN ∧
    showOverlayStyle (ofDetector (getRenderType m e)) ≠
      showOverlayStyle OverlayRenderType.UNKNOWN := by
  refine ⟨getRenderType_eq_SSR_or_CSR m e, ?_, ?_⟩
  · rcases getRenderType_eq_SSR_or_CSR m e with h | h <;> rw [h] <;> decide
  · rcases getRenderType_eq_SSR_or_CSR m e with h | h <;> rw [h] <;> decide

end SSRInspector
